import Mathlib

/-!
Shallow embedding of `easypy/decorations.py`.

Python callables, decorated callables and resource objects are identified by
natural-number object identities.  Stateful pieces (the per-instance attribute
dictionary used by `DecoratingDescriptor`, the current context manager held by
`ReusableCtx`) are modelled by explicit state passing.  `TypeError`s become
`Except String` errors carrying the formatted message.
-/

/-- Decidable equality for `Except`, so concrete runs of the embedded
functions can be checked by `decide`. -/
instance {ε α : Type} [DecidableEq ε] [DecidableEq α] : DecidableEq (Except ε α) :=
  fun x y =>
    match x, y with
    | .ok a, .ok b =>
        if h : a = b then .isTrue (by rw [h])
        else .isFalse (by intro hc; cases hc; exact h rfl)
    | .error a, .error b =>
        if h : a = b then .isTrue (by rw [h])
        else .isFalse (by intro hc; cases hc; exact h rfl)
    | .ok _, .error _ => .isFalse (by intro hc; cases hc)
    | .error _, .ok _ => .isFalse (by intro hc; cases hc)

namespace Decorations

/-! ### Lazy per-instance decoration (`DecoratingDescriptor`, `lazy_decorator`) -/

/-- The decorator-factory argument accepted by `lazy_decorator`: a Python value
that is either callable, a string, or something else (carrying its type name,
as `type(x)` would render it). -/
inductive FactoryArg where
  | callableArg (f : Nat)
  | stringArg (s : String)
  | otherArg (typeName : String)
deriving DecidableEq

/-- The factory actually stored on the descriptor after `lazy_decorator`'s
normalisation: the callable itself, or `attrgetter(name)` for a string. -/
inductive ResolvedFactory where
  | direct (f : Nat)
  | attrGetter (s : String)
deriving DecidableEq

/-- `LazyDecoratorDescriptor(decorator_factory, func, cached)`: the descriptor
produced by the wrapper that `lazy_decorator` returns. -/
structure LazyDecoratorDescriptor where
  factory : ResolvedFactory
  func : Nat
  cached : Bool
deriving DecidableEq

/-- `lazy_decorator(decorator_factory, cached)`: validates/normalises the
factory, then returns the wrapper `func ↦ LazyDecoratorDescriptor(...)`.
A factory that is neither callable nor a string raises
`TypeError('decorator_factory must be callable or string, not %s' % type(...))`
before any wrapper is built. -/
def lazy_decorator (factory : FactoryArg) (cached : Bool) :
    Except String (Nat → LazyDecoratorDescriptor) :=
  match factory with
  | .callableArg f => .ok (fun func => ⟨.direct f, func, cached⟩)
  | .stringArg s => .ok (fun func => ⟨.attrGetter s, func, cached⟩)
  | .otherArg t =>
      .error ("decorator_factory must be callable or string, not " ++ t)

/-- The slice of a Python instance's state that `DecoratingDescriptor.__get__`
touches: the `instance.__dict__` entry stored under the descriptor's unique
`__property_<id>` key, plus an instrumentation counter of how many times the
decorator factory has been invoked for this (attribute, instance) pair. -/
structure InstanceState where
  propCache : Option Nat
  factoryCalls : Nat
deriving DecidableEq

/-- A fresh instance: empty `__dict__` slot, factory never invoked. -/
def initState : InstanceState := ⟨none, 0⟩

/-- What `__get__` hands back: the plain (un-decorated) callable, or a
decorated callable identified by its creation index. -/
inductive GetResult where
  | method (f : Nat)
  | decorated (id : Nat)
deriving DecidableEq

/-- `LazyDecoratorDescriptor._decorate(method, instance, owner)`: calls
`self.decorator_factory(instance)` and applies the resulting decorator to the
bound method.  Each invocation produces a fresh decorated object (identified
by the invocation index) and bumps the invocation counter. -/
def decorate (s : InstanceState) : Nat × InstanceState :=
  (s.factoryCalls, { s with factoryCalls := s.factoryCalls + 1 })

/-- `DecoratingDescriptor.__get__(self, instance, owner)`.  `none` is Python's
`instance is None` (access through the class): the plain function comes back
and nothing is decorated.  Through an instance, the cached flag selects
between the `instance.__dict__` lookup-or-store path and unconditional
re-decoration. -/
def dunderGet (d : LazyDecoratorDescriptor) :
    Option InstanceState → GetResult × Option InstanceState
  | none => (.method d.func, none)
  | some s =>
      if d.cached then
        match s.propCache with
        | some v => (.decorated v, some s)
        | none =>
            let (bound, s') := decorate s
            (.decorated bound, some { s' with propCache := some bound })
      else
        let (bound, s') := decorate s
        (.decorated bound, some s')

/-- One attribute read through an instance (the `instance is not None` path of
`__get__`); the dead `none` branch keeps the state unchanged. -/
def readOnce (d : LazyDecoratorDescriptor) (s : InstanceState) :
    GetResult × InstanceState :=
  match dunderGet d (some s) with
  | (r, some s') => (r, s')
  | (r, none) => (r, s)

/-- A sequence of `n` attribute reads through the same instance, collecting
the returned objects in order. -/
def readSeq (d : LazyDecoratorDescriptor) :
    Nat → InstanceState → List GetResult × InstanceState
  | 0, s => ([], s)
  | n + 1, s =>
      let (r, s') := readOnce d s
      let (rs, s'') := readSeq d n s'
      (r :: rs, s'')

/-! ### `reusable_contextmanager` and `ReusableCtx` -/

/-- The lifecycle of a single-use generator-based context manager
(`contextlib._GeneratorContextManager`): its generator is fresh, currently
suspended at the `yield`, or exhausted.  `runId` identifies the particular
generator run (the underlying resource instance). -/
inductive GState where
  | fresh
  | running
  | finished
deriving DecidableEq

/-- A single-use generator-based context manager. -/
structure GenCM where
  state : GState
  runId : Nat
deriving DecidableEq

/-- `_GeneratorContextManager.__enter__`: advances the generator to its
`yield`; on an already-consumed generator this raises
(`StopIteration` / `RuntimeError("generator didn't yield")`). -/
def genEnter (cm : GenCM) : Except String (Nat × GenCM) :=
  match cm.state with
  | .fresh => .ok (cm.runId, { cm with state := .running })
  | _ => .error "generator did not yield"

/-- `_GeneratorContextManager.__exit__` on the happy path: resumes the
generator past the `yield`, exhausting it. -/
def genExit (cm : GenCM) : Except String GenCM :=
  match cm.state with
  | .running => .ok { cm with state := .finished }
  | _ => .error "generator already exhausted"

/-- `cm._recreate_cm()`: builds a brand-new context manager from the stored
`(func, args, kwds)` — a fresh generator run, identified by a fresh id. -/
def recreateCm (n : Nat) : GenCM := ⟨.fresh, n⟩

/-- The state of a `ReusableCtx` proxy: the context manager stored in
`self.cm` by the last `__enter__` (absent before the first), and the supply
of fresh run ids for `_recreate_cm`. -/
structure ReusableCtx where
  cm : Option GenCM
  nextRun : Nat
deriving DecidableEq

/-- `ReusableCtx.__enter__`: `self.cm = context_manager._recreate_cm()` then
`return self.cm.__enter__()`. -/
def reusableEnter (r : ReusableCtx) : Except String (Nat × ReusableCtx) := do
  let cm := recreateCm r.nextRun
  let (v, cm') ← genEnter cm
  return (v, ⟨some cm', r.nextRun + 1⟩)

/-- `ReusableCtx.__exit__` (state effect only): delegates to
`self.cm.__exit__(*args)`. -/
def reusableExit (r : ReusableCtx) : Except String ReusableCtx :=
  match r.cm with
  | none => .error "no context manager stored"
  | some cm => do
      let cm' ← genExit cm
      return ⟨some cm', r.nextRun⟩

/-- Python truthiness of an `__exit__` return value (`None` or a bool):
only a true value suppresses an in-flight exception. -/
def pyTruthy : Option Bool → Bool
  | none => false
  | some b => b

/-- `ReusableCtx.__exit__`'s return value: the body evaluates
`self.cm.__exit__(*args)`, discards the result, and falls off the end, so
Python returns `None`. -/
def reusableExitValue (delegatedExit : Unit → Option Bool) : Option Bool :=
  let _ := delegatedExit ()
  none

/-- A Python object handed to `reusable_contextmanager`: whether
`hasattr(obj, '_recreate_cm')` holds, and its identity. -/
structure PyObj where
  hasRecreateCm : Bool
  objId : Nat
deriving DecidableEq

/-- The result of `reusable_contextmanager`: the input object itself, or a
fresh `ReusableCtx` proxy. -/
inductive ReusableResult where
  | unchanged (cm : PyObj)
  | proxy (r : ReusableCtx)
deriving DecidableEq

/-- `reusable_contextmanager(context_manager)`: objects without the
`_recreate_cm` capability are returned as-is; otherwise a fresh
`ReusableCtx()` proxy is returned. -/
def reusable_contextmanager (cm : PyObj) : ReusableResult :=
  if cm.hasRecreateCm then .proxy ⟨none, 0⟩ else .unchanged cm

/-- Two complete enter/exit cycles on a fresh `ReusableCtx` proxy, returning
the resource handed out by each enter. -/
def twoCycleRun : Except String (Nat × Nat) := do
  let (v1, r1) ← reusableEnter ⟨none, 0⟩
  let r2 ← reusableExit r1
  let (v2, r3) ← reusableEnter r2
  let _ ← reusableExit r3
  return (v1, v2)

/-- Entering the *original* single-use context manager a second time after a
full enter/exit cycle. -/
def singleUseTwice : Except String (Nat × GenCM) := do
  let (_, c1) ← genEnter (recreateCm 0)
  let c2 ← genExit c1
  genEnter c2

/-! ### `parametrizeable_decorator` -/

/-- A Python callable, split into the introspectable identity metadata that
`functools.wraps` copies (`__name__`, `__doc__`, ...) and an identifier of its
behaviour. -/
structure Fn where
  idMeta : String
  body : Nat
deriving DecidableEq

/-- Decorator keyword options. -/
def Opts := List (String × Nat)
deriving DecidableEq

/-- `wraps(func)(result)`: copies `func`'s identity metadata onto the
decorated result (in Python this mutates and returns the same object; the
behaviour is untouched). -/
def wrapsFn (func result : Fn) : Fn := { result with idMeta := func.idMeta }

/-- What `inner(func=None, **kwargs)` returns inside
`parametrizeable_decorator(deco)`: with `func=None`, `partial(deco, **kwargs)`
(a partially-applied decorator still awaiting the callable, represented by the
captured options); with a callable, `wraps(func)(deco(func, **kwargs))`. -/
def parametrizeable_decorator (deco : Fn → Opts → Fn) (func : Option Fn)
    (kwargs : Opts) : Sum Opts Fn :=
  match func with
  | none => .inl kwargs
  | some f => .inr (wrapsFn f (deco f kwargs))

/-- Calling the `partial(deco, **kwargs)` object on the target callable. -/
def applyPartialDeco (deco : Fn → Opts → Fn) (captured : Opts) (f : Fn) : Fn :=
  deco f captured

/-- The `@deco_wrapped` shape: `deco_wrapped(f)` (with options, or `[]` for
the bare form). -/
def decoDirect (deco : Fn → Opts → Fn) (f : Fn) (opts : Opts) : Fn :=
  match parametrizeable_decorator deco (some f) opts with
  | .inr r => r
  | .inl captured => applyPartialDeco deco captured f

/-- The `@deco_wrapped(**opts)` shape: `deco_wrapped(**opts)` first (no
callable), then the returned partial applied to `f`. -/
def decoViaPartial (deco : Fn → Opts → Fn) (f : Fn) (opts : Opts) : Fn :=
  match parametrizeable_decorator deco none opts with
  | .inl captured => applyPartialDeco deco captured f
  | .inr r => r

/-! ### `mirror_defaults`

Parameters are the positional-or-keyword parameters `inspect.signature`
reports; a default of `none` is `inspect._empty` (no default), and the `AUTO`
sentinel from `easypy.tokens` is one possible default value. -/

/-- A Python value as far as this module cares: an integer, or the `AUTO`
sentinel. -/
inductive Value where
  | int (n : Int)
  | auto
deriving DecidableEq

/-- One parameter of a signature: its name and its default
(`none` = `inspect._empty`). -/
structure Param where
  name : String
  default : Option Value
deriving DecidableEq

/-- First-match lookup in an association list (Python `dict` access). -/
def lookupArg (l : List (String × Value)) (k : String) : Option Value :=
  match l with
  | [] => none
  | (k', v) :: rest => if k' = k then some v else lookupArg rest k

/-- Removal from an association list (`kwargs.pop(name)`'s effect). -/
def removeArg (l : List (String × Value)) (k : String) : List (String × Value) :=
  match l with
  | [] => []
  | (k', v) :: rest => if k' = k then removeArg rest k else (k', v) :: removeArg rest k

/-- The `defaults` dict built by `mirror_defaults`:
`{p.name: p.default for p in signature(mirrored).parameters.values()
  if p.default is not _empty}`. -/
def defaultsOf (params : List Param) : List (String × Value) :=
  params.filterMap (fun p => p.default.map (fun v => (p.name, v)))

/-- `new_params_generator(params, defaults_to_override)`: replaces each `AUTO`
default with the mirrored function's default for the same name, recording the
name in `defaults_to_override`; an `AUTO` parameter with no mirrored default
raises `TypeError('%s has no default value for %s' % ...)`.  Returns the new
parameter list together with the recorded override names. -/
def newParams (defaults : List (String × Value)) (mirroredName : String) :
    List Param → Except String (List Param × List String)
  | [] => .ok ([], [])
  | p :: ps =>
      if p.default = some Value.auto then
        match lookupArg defaults p.name with
        | none => .error (mirroredName ++ " has no default value for " ++ p.name)
        | some v =>
            match newParams defaults mirroredName ps with
            | .error e => .error e
            | .ok (ps', overrides) =>
                .ok ({ p with default := some v } :: ps', p.name :: overrides)
      else
        match newParams defaults mirroredName ps with
        | .error e => .error e
        | .ok (ps', overrides) => .ok (p :: ps', overrides)

/-- The wrapped callable `inner` built by `mirror_defaults(mirrored)(func)`:
its exposed `inner.signature` attribute (= `new_signature`), the captured
`defaults_to_override` set, the captured `defaults` dict, and the original
`func`'s own parameters. -/
structure MirrorWrapped where
  signature : List Param
  overrides : List String
  defaults : List (String × Value)
  funcParams : List Param
deriving DecidableEq

/-- `mirror_defaults(mirrored)` applied to `func` (`outer(func)`): builds the
new signature at decoration time — the generator is consumed by
`orig_signature.replace(parameters=...)`, so a missing mirrored default fails
here, before any call — and returns the wrapped callable's data. -/
def mirror_defaults (mirroredParams : List Param) (mirroredName : String)
    (funcParams : List Param) : Except String MirrorWrapped :=
  match newParams (defaultsOf mirroredParams) mirroredName funcParams with
  | .error e => .error e
  | .ok (newSig, overrides) =>
      .ok ⟨newSig, overrides, defaultsOf mirroredParams, funcParams⟩

/-- The keyword phase of `Signature.bind`: walks the parameters left after the
positional phase, taking values from `kwargs`; a parameter absent from
`kwargs` with no default raises `missing a required argument`; leftover
`kwargs` raise `unexpected keyword argument`. -/
def bindKw (params : List Param) (kwargs : List (String × Value)) :
    Except String (List (String × Value)) :=
  match params with
  | [] =>
      if kwargs.isEmpty then .ok []
      else .error "got an unexpected keyword argument"
  | p :: ps =>
      match lookupArg kwargs p.name with
      | some v => do
          let rest ← bindKw ps (removeArg kwargs p.name)
          return (p.name, v) :: rest
      | none =>
          if p.default.isSome then bindKw ps kwargs
          else .error ("missing a required argument: " ++ p.name)

/-- `Signature.bind(*args, **kwargs)` for positional-or-keyword parameters:
assigns positional arguments to the leading parameters (erroring on excess or
on a duplicate keyword), then runs the keyword phase.  Defaults are *not*
placed into the result (`bind` does not apply defaults). -/
def bindSig (params : List Param) (args : List Value)
    (kwargs : List (String × Value)) : Except String (List (String × Value)) :=
  match params, args with
  | ps, [] => bindKw ps kwargs
  | [], _ :: _ => .error "too many positional arguments"
  | p :: ps, a :: rest =>
      if (lookupArg kwargs p.name).isSome then
        .error ("multiple values for argument " ++ p.name)
      else do
        let bound ← bindSig ps rest kwargs
        return (p.name, a) :: bound

/-- `for name in defaults_to_override - binding.arguments.keys():
binding.arguments[name] = defaults[name]` — injects the mirrored default for
every overridden parameter the caller did not supply. -/
def injectOverrides (overrides : List String) (defaults : List (String × Value))
    (arguments : List (String × Value)) : List (String × Value) :=
  overrides.foldl
    (fun acc name =>
      if (lookupArg acc name).isSome then acc
      else
        match lookupArg defaults name with
        | some v => acc ++ [(name, v)]
        | none => acc)
    arguments

/-- The `kwargs` side of `BoundArguments`: once the positional run is broken,
every later parameter present in `arguments` is passed by keyword. -/
def collectKwSide (params : List Param) (arguments : List (String × Value)) :
    List (String × Value) :=
  params.filterMap (fun p => (lookupArg arguments p.name).map (fun v => (p.name, v)))

/-- `binding.args` / `binding.kwargs`: the longest prefix of parameters
present in `arguments` is passed positionally; after the first gap the
remaining present parameters are passed by keyword. -/
def boundSplit (params : List Param) (arguments : List (String × Value)) :
    List Value × List (String × Value) :=
  match params with
  | [] => ([], [])
  | p :: ps =>
      match lookupArg arguments p.name with
      | some v =>
          let (a, k) := boundSplit ps arguments
          (v :: a, k)
      | none => ([], collectKwSide ps arguments)

/-- The parameter environment an actual Python call produces: explicit
bindings, completed with the signature's own defaults. -/
def applyDefaults (params : List Param) (bound : List (String × Value)) :
    List (String × Value) :=
  params.filterMap (fun p =>
    match lookupArg bound p.name with
    | some v => some (p.name, v)
    | none => p.default.map (fun v => (p.name, v)))

/-- Invoking `func(*args, **kwargs)`: binds against `func`'s own signature and
applies its own defaults, giving the argument values the body sees. -/
def callFunction (params : List Param) (args : List Value)
    (kwargs : List (String × Value)) : Except String (List (String × Value)) := do
  let bound ← bindSig params args kwargs
  return applyDefaults params bound

/-- A call of the wrapped function `inner(*args, **kwargs)`: bind against the
new signature, inject mirrored defaults for unsupplied overridden parameters,
convert back to `binding.args` / `binding.kwargs`, and invoke the original
`func` with them.  Returns the argument values `func` receives. -/
def callMirrored (w : MirrorWrapped) (args : List Value)
    (kwargs : List (String × Value)) : Except String (List (String × Value)) := do
  let binding ← bindSig w.signature args kwargs
  let binding := injectOverrides w.overrides w.defaults binding
  let (a, k) := boundSplit w.signature binding
  callFunction w.funcParams a k

/-- `foo(a=1, b=2, c=3)` from the module's doctest. -/
def fooParams : List Param :=
  [⟨"a", some (.int 1)⟩, ⟨"b", some (.int 2)⟩, ⟨"c", some (.int 3)⟩]

/-- `bar(a=AUTO, b=4, c=AUTO)` from the module's doctest. -/
def barParams : List Param :=
  [⟨"a", some .auto⟩, ⟨"b", some (.int 4)⟩, ⟨"c", some .auto⟩]

/-- A target signature with an `AUTO` parameter (`d`) that `foo` has no
default for. -/
def bazParams : List Param :=
  [⟨"a", some .auto⟩, ⟨"d", some .auto⟩]

/-- The concrete wrapped-callable data `mirror_defaults(foo)` produces for
`bar`. -/
def fooBarWrapped : MirrorWrapped :=
  ⟨[⟨"a", some (.int 1)⟩, ⟨"b", some (.int 4)⟩, ⟨"c", some (.int 3)⟩],
   ["a", "c"],
   [("a", .int 1), ("b", .int 2), ("c", .int 3)],
   barParams⟩

/-! ### Helper lemmas -/

theorem readOnce_cached_hit (d : LazyDecoratorDescriptor) (hd : d.cached = true)
    (v c : Nat) : readOnce d ⟨some v, c⟩ = (.decorated v, ⟨some v, c⟩) := by
  simp [readOnce, dunderGet, hd]

theorem readSeq_cached_stable (d : LazyDecoratorDescriptor)
    (hd : d.cached = true) (v c : Nat) :
    ∀ n, readSeq d n ⟨some v, c⟩ =
      (List.replicate n (.decorated v), ⟨some v, c⟩) := by
  intro n
  induction n with
  | zero => simp [readSeq]
  | succ m ih => simp [readSeq, readOnce_cached_hit d hd, ih, List.replicate]

theorem readSeq_cached_init (d : LazyDecoratorDescriptor)
    (hd : d.cached = true) (m : Nat) :
    readSeq d (m + 1) initState =
      (List.replicate (m + 1) (.decorated 0), ⟨some 0, 1⟩) := by
  have h1 : readOnce d initState = (.decorated 0, ⟨some 0, 1⟩) := by
    simp [readOnce, dunderGet, initState, decorate, hd]
  simp [readSeq, h1, readSeq_cached_stable d hd 0 1 m, List.replicate]

theorem readOnce_uncached (d : LazyDecoratorDescriptor)
    (hd : d.cached = false) (s : InstanceState) :
    readOnce d s =
      (.decorated s.factoryCalls, { s with factoryCalls := s.factoryCalls + 1 }) := by
  simp [readOnce, dunderGet, hd, decorate]

theorem readSeq_uncached_calls (d : LazyDecoratorDescriptor)
    (hd : d.cached = false) :
    ∀ n s, (readSeq d n s).2.factoryCalls = s.factoryCalls + n := by
  intro n
  induction n with
  | zero => intro s; simp [readSeq]
  | succ m ih =>
      intro s
      simp [readSeq, readOnce_uncached d hd, ih]
      omega

theorem reusableEnter_eq (r : ReusableCtx) :
    reusableEnter r = .ok (r.nextRun, ⟨some ⟨.running, r.nextRun⟩, r.nextRun + 1⟩) := rfl

theorem lookupArg_mem : ∀ {l : List (String × Value)} {k : String} {v : Value},
    lookupArg l k = some v → (k, v) ∈ l := by
  intro l
  induction l with
  | nil => intro k v h; cases h
  | cons x rest ih =>
      intro k v h
      obtain ⟨k', v'⟩ := x
      by_cases hk : k' = k
      · subst hk
        simp [lookupArg] at h
        subst h
        exact List.mem_cons_self _ _
      · simp [lookupArg, hk] at h
        exact List.mem_cons_of_mem _ (ih h)

theorem newParams_missing (defaults : List (String × Value)) (mn : String) :
    ∀ fp : List Param,
      (∃ p ∈ fp, p.default = some Value.auto ∧ lookupArg defaults p.name = none) →
      ∃ q ∈ fp, q.default = some Value.auto ∧ lookupArg defaults q.name = none ∧
        newParams defaults mn fp =
          .error (mn ++ " has no default value for " ++ q.name) := by
  intro fp
  induction fp with
  | nil => rintro ⟨p, hp, -⟩; cases hp
  | cons p ps ih =>
      rintro ⟨x, hx, hauto, hlook⟩
      by_cases hpa : p.default = some Value.auto
      · cases hl : lookupArg defaults p.name with
        | none =>
            exact ⟨p, List.mem_cons_self _ _, hpa, hl, by simp [newParams, hpa, hl]⟩
        | some v =>
            have hxps : x ∈ ps := by
              rcases List.mem_cons.mp hx with h1 | h1
              · subst h1; rw [hl] at hlook; cases hlook
              · exact h1
            obtain ⟨q, hq, hqa, hql, herr⟩ := ih ⟨x, hxps, hauto, hlook⟩
            refine ⟨q, List.mem_cons_of_mem _ hq, hqa, hql, ?_⟩
            simp [newParams, hpa, hl, herr]
      · have hxps : x ∈ ps := by
          rcases List.mem_cons.mp hx with h1 | h1
          · subst h1; exact absurd hauto hpa
          · exact h1
        obtain ⟨q, hq, hqa, hql, herr⟩ := ih ⟨x, hxps, hauto, hlook⟩
        refine ⟨q, List.mem_cons_of_mem _ hq, hqa, hql, ?_⟩
        simp [newParams, hpa, herr]

theorem newParams_ok_no_auto (defaults : List (String × Value)) (mn : String)
    (hreal : ∀ x ∈ defaults, x.2 ≠ Value.auto) :
    ∀ fp newSig overrides, newParams defaults mn fp = .ok (newSig, overrides) →
      ∀ p ∈ newSig, p.default ≠ some Value.auto := by
  intro fp
  induction fp with
  | nil =>
      intro newSig overrides h p hp
      simp only [newParams, Except.ok.injEq, Prod.mk.injEq] at h
      obtain ⟨h1, -⟩ := h
      subst h1
      cases hp
  | cons q ps ih =>
      intro newSig overrides h p hp
      by_cases hqa : q.default = some Value.auto
      · simp only [newParams, if_pos hqa] at h
        cases hl : lookupArg defaults q.name with
        | none => rw [hl] at h; cases h
        | some v =>
            rw [hl] at h
            cases hrec : newParams defaults mn ps with
            | error e => rw [hrec] at h; cases h
            | ok pr =>
                obtain ⟨ps', o⟩ := pr
                rw [hrec, Except.ok.injEq, Prod.mk.injEq] at h
                obtain ⟨h1, -⟩ := h
                subst h1
                rcases List.mem_cons.mp hp with h1 | h1
                · subst h1
                  intro hc
                  have hv : v = Value.auto := by
                    simpa using hc
                  exact hreal _ (lookupArg_mem hl) (by rw [hv])
                · exact ih ps' o hrec p h1
      · simp only [newParams, if_neg hqa] at h
        cases hrec : newParams defaults mn ps with
        | error e => rw [hrec] at h; cases h
        | ok pr =>
            obtain ⟨ps', o⟩ := pr
            rw [hrec, Except.ok.injEq, Prod.mk.injEq] at h
            obtain ⟨h1, -⟩ := h
            subst h1
            rcases List.mem_cons.mp hp with h1 | h1
            · subst h1; exact hqa
            · exact ih ps' o hrec p h1

theorem newParams_ok_sub (defaults : List (String × Value)) (mn : String) :
    ∀ fp newSig overrides, newParams defaults mn fp = .ok (newSig, overrides) →
      List.Forall₂ (fun porig pnew =>
        pnew.name = porig.name ∧
        pnew.default = (if porig.default = some Value.auto
                        then lookupArg defaults porig.name
                        else porig.default)) fp newSig := by
  intro fp
  induction fp with
  | nil =>
      intro newSig overrides h
      simp only [newParams, Except.ok.injEq, Prod.mk.injEq] at h
      obtain ⟨h1, -⟩ := h
      subst h1
      exact List.Forall₂.nil
  | cons q ps ih =>
      intro newSig overrides h
      by_cases hqa : q.default = some Value.auto
      · simp only [newParams, if_pos hqa] at h
        cases hl : lookupArg defaults q.name with
        | none => rw [hl] at h; cases h
        | some v =>
            rw [hl] at h
            cases hrec : newParams defaults mn ps with
            | error e => rw [hrec] at h; cases h
            | ok pr =>
                obtain ⟨ps', o⟩ := pr
                rw [hrec, Except.ok.injEq, Prod.mk.injEq] at h
                obtain ⟨h1, -⟩ := h
                subst h1
                exact List.Forall₂.cons ⟨rfl, by rw [if_pos hqa, hl]⟩ (ih ps' o hrec)
      · simp only [newParams, if_neg hqa] at h
        cases hrec : newParams defaults mn ps with
        | error e => rw [hrec] at h; cases h
        | ok pr =>
            obtain ⟨ps', o⟩ := pr
            rw [hrec, Except.ok.injEq, Prod.mk.injEq] at h
            obtain ⟨h1, -⟩ := h
            subst h1
            exact List.Forall₂.cons ⟨rfl, by rw [if_neg hqa]⟩ (ih ps' o hrec)

theorem mirror_defaults_ok_inv (mp : List Param) (mn : String) (fp : List Param)
    (w : MirrorWrapped) (h : mirror_defaults mp mn fp = .ok w) :
    newParams (defaultsOf mp) mn fp = .ok (w.signature, w.overrides) ∧
    w.defaults = defaultsOf mp ∧ w.funcParams = fp := by
  unfold mirror_defaults at h
  cases hrec : newParams (defaultsOf mp) mn fp with
  | error e => rw [hrec] at h; cases h
  | ok pr =>
      obtain ⟨sig, o⟩ := pr
      rw [hrec, Except.ok.injEq] at h
      subst h
      exact ⟨rfl, rfl, rfl⟩

/-! ### Claim theorems -/

/-- C1: over any sequence of attribute reads through one instance, a cached
lazy-decoration attribute invokes the decorator factory exactly once (zero
times for zero reads) and every read returns the same object as the first,
while an uncached one invokes the factory on every read — in particular twice
for two successive reads. -/
theorem C1_lazy_cache_discipline (fac : ResolvedFactory) (f n : Nat) :
    ((readSeq ⟨fac, f, true⟩ n initState).2.factoryCalls = min n 1
      ∧ ∀ r ∈ (readSeq ⟨fac, f, true⟩ n initState).1, r = GetResult.decorated 0)
    ∧ (readSeq ⟨fac, f, false⟩ 2 initState).2.factoryCalls = 2
    ∧ (readSeq ⟨fac, f, false⟩ n initState).2.factoryCalls = n := by
  refine ⟨⟨?_, ?_⟩, ?_, ?_⟩
  · cases n with
    | zero => simp [readSeq, initState]
    | succ m =>
        rw [readSeq_cached_init ⟨fac, f, true⟩ rfl m]
        simp
  · intro r hr
    cases n with
    | zero => simp [readSeq] at hr
    | succ m =>
        rw [readSeq_cached_init ⟨fac, f, true⟩ rfl m] at hr
        exact List.eq_of_mem_replicate hr
  · have h := readSeq_uncached_calls ⟨fac, f, false⟩ rfl 2 initState
    simpa [initState] using h
  · have h := readSeq_uncached_calls ⟨fac, f, false⟩ rfl n initState
    simpa [initState] using h

/-- C2: for `foo(a=1, b=2, c=3)` mirrored onto `bar(a=AUTO, b=4, c=AUTO)`,
calling the wrapped `bar` with no arguments makes the underlying function run
with `a=1, b=4, c=3`: AUTO-marked parameters get the mirrored defaults, the
non-AUTO parameter keeps the target's own default. -/
theorem C2_mirror_doctest :
    ((mirror_defaults fooParams "foo" barParams).bind
      (fun w => callMirrored w [] [])) =
    .ok [("a", Value.int 1), ("b", Value.int 4), ("c", Value.int 3)] := by
  decide

/-- C3: for every decorator-construction function `deco` and options, the
shapes `wrapped(f)`, `wrapped()(f)` and `wrapped(**opts)(f)` produce
behaviourally equivalent decorated results (taking `opts = []` for the bare
shapes); the direct-call shape additionally carries the original callable's
identity metadata, and calling with `func=None` returns a partially-applied
decorator awaiting the target callable. -/
theorem C3_parametrizeable_shapes (deco : Fn → Opts → Fn) (f : Fn) (opts : Opts) :
    (decoDirect deco f opts).body = (deco f opts).body
    ∧ (decoViaPartial deco f opts).body = (deco f opts).body
    ∧ (decoDirect deco f opts).idMeta = f.idMeta
    ∧ parametrizeable_decorator deco none opts = .inl opts
    ∧ applyPartialDeco deco opts f = deco f opts :=
  ⟨rfl, rfl, rfl, rfl, rfl⟩

/-- C4: if the target function has some AUTO-defaulted parameter whose name
has no default on the mirrored function, decoration itself (before any call)
returns the `TypeError`, whose message names both the mirrored function and
the missing parameter. -/
theorem C4_missing_default (mp : List Param) (mn : String) (fp : List Param)
    (h : ∃ p ∈ fp, p.default = some Value.auto ∧
          lookupArg (defaultsOf mp) p.name = none) :
    ∃ q ∈ fp, q.default = some Value.auto ∧
      lookupArg (defaultsOf mp) q.name = none ∧
      mirror_defaults mp mn fp =
        .error (mn ++ " has no default value for " ++ q.name) := by
  obtain ⟨q, hq, hqa, hql, herr⟩ := newParams_missing (defaultsOf mp) mn fp h
  exact ⟨q, hq, hqa, hql, by simp [mirror_defaults, herr]⟩

/-- Witness for C4: mirroring `foo(a=1, b=2, c=3)` onto `baz(a=AUTO, d=AUTO)`
fails at decoration time naming `foo` and `d`. -/
theorem C4_missing_default_witness :
    ∃ q ∈ bazParams, q.default = some Value.auto ∧
      lookupArg (defaultsOf fooParams) q.name = none ∧
      mirror_defaults fooParams "foo" bazParams =
        .error ("foo" ++ " has no default value for " ++ q.name) :=
  C4_missing_default fooParams "foo" bazParams (by decide)

/-- C5: every enter of the `ReusableCtx` proxy recreates a fresh underlying
resource (new run id, state `fresh`) and succeeds; two full enter/exit cycles
in sequence succeed and use independent resources (run ids 0 then 1); by
contrast, the original single-use resource fails on its second enter. -/
theorem C5_reusable_cycles :
    (∀ r : ReusableCtx, reusableEnter r =
      .ok (r.nextRun, ⟨some ⟨.running, r.nextRun⟩, r.nextRun + 1⟩))
    ∧ twoCycleRun = .ok (0, 1)
    ∧ singleUseTwice = .error "generator did not yield" :=
  ⟨reusableEnter_eq, by decide, by decide⟩

/-- C6: when decoration succeeds and the mirrored function's defaults are real
values (not AUTO), the wrapped callable's exposed `signature` attribute has no
AUTO default left: parameter-by-parameter it keeps the name, AUTO defaults are
replaced by the mirrored function's default for that name, and non-AUTO
defaults are kept as declared. -/
theorem C6_signature_exposed (mp : List Param) (mn : String) (fp : List Param)
    (w : MirrorWrapped) (hok : mirror_defaults mp mn fp = .ok w)
    (hreal : ∀ x ∈ defaultsOf mp, x.2 ≠ Value.auto) :
    (∀ p ∈ w.signature, p.default ≠ some Value.auto)
    ∧ List.Forall₂ (fun porig pnew =>
        pnew.name = porig.name ∧
        pnew.default = (if porig.default = some Value.auto
                        then lookupArg (defaultsOf mp) porig.name
                        else porig.default)) fp w.signature := by
  obtain ⟨hnew, -, -⟩ := mirror_defaults_ok_inv mp mn fp w hok
  exact ⟨newParams_ok_no_auto (defaultsOf mp) mn hreal fp _ _ hnew,
         newParams_ok_sub (defaultsOf mp) mn fp _ _ hnew⟩

/-- Witness for C6: the `foo`/`bar` doctest pair, with the concrete wrapped
data `fooBarWrapped`. -/
theorem C6_signature_exposed_witness :
    (∀ p ∈ fooBarWrapped.signature, p.default ≠ some Value.auto)
    ∧ List.Forall₂ (fun porig pnew =>
        pnew.name = porig.name ∧
        pnew.default = (if porig.default = some Value.auto
                        then lookupArg (defaultsOf fooParams) porig.name
                        else porig.default)) barParams fooBarWrapped.signature :=
  C6_signature_exposed fooParams "foo" barParams fooBarWrapped
    (by decide) (by decide)

/-- C7: reading the lazy-decoration attribute through the class
(`instance is None`) returns the plain undecorated callable and applies no
decoration, whether or not caching is enabled. -/
theorem C7_class_access (d : LazyDecoratorDescriptor) :
    dunderGet d none = (GetResult.method d.func, none) := rfl

/-- C8: an input without the `_recreate_cm` capability is returned by
`reusable_contextmanager` as the identical object, unwrapped. -/
theorem C8_already_reusable (cm : PyObj) (h : cm.hasRecreateCm = false) :
    reusable_contextmanager cm = .unchanged cm := by
  simp [reusable_contextmanager, h]

/-- Witness for C8: a concrete non-recreatable object comes back unchanged. -/
theorem C8_already_reusable_witness :
    (PyObj.mk false 42).hasRecreateCm = false
    ∧ reusable_contextmanager ⟨false, 42⟩ = .unchanged ⟨false, 42⟩ :=
  ⟨rfl, C8_already_reusable ⟨false, 42⟩ rfl⟩

/-- C9: `lazy_decorator` raises its `TypeError` exactly when the factory is
neither callable nor a string; the message names the offending argument's
type, and callable or string factories construct the wrapper without error. -/
theorem C9_factory_type_check (cached : Bool) :
    (∀ fa : FactoryArg,
      (∃ e, lazy_decorator fa cached = .error e) ↔ (∃ t, fa = .otherArg t))
    ∧ (∀ t, lazy_decorator (.otherArg t) cached =
        .error ("decorator_factory must be callable or string, not " ++ t))
    ∧ (∀ f, ∃ wrapper, lazy_decorator (.callableArg f) cached = .ok wrapper)
    ∧ (∀ s, ∃ wrapper, lazy_decorator (.stringArg s) cached = .ok wrapper) := by
  refine ⟨?_, fun t => rfl, fun f => ⟨_, rfl⟩, fun s => ⟨_, rfl⟩⟩
  intro fa
  cases fa with
  | callableArg f => simp [lazy_decorator]
  | stringArg s => simp [lazy_decorator]
  | otherArg t => simp [lazy_decorator]

/-- C10: `ReusableCtx.__exit__` returns `None` whatever the underlying exit
returned, so even a suppression signal (`True`) from the freshly created
resource's exit is discarded and an in-flight exception still propagates. -/
theorem C10_exit_discards_suppression (underlying : Option Bool) :
    reusableExitValue (fun _ => underlying) = none
    ∧ pyTruthy (reusableExitValue (fun _ => underlying)) = false :=
  ⟨rfl, rfl⟩

end Decorations
